import Mathlib

/-!
Verification of two components of the Huawei Cloud plugin for the
cloud-custodian policy engine, against their natural-language
specification.

Part 1 embeds the auto-tag-user action from
tools/c7n_huaweicloud/c7n_huaweicloud/actions/autotag.py.
Part 2 embeds the network-location filter from
tools/c7n_huaweicloud/c7n_huaweicloud/filters/vpc.py.

Python dicts are modelled as association lists with in-place update on
an existing key; Python exceptions are modelled with Except; Python
string truthiness is modelled explicitly.
-/

namespace CC

/-- Python truthiness of an optional string: None and the empty string
are falsy, every other string is truthy. -/
def truthy : Option String → Bool
  | none => false
  | some s => s != ""

/-- Assignment into a Python dict modelled as an association list: an
existing key is updated in place, a new key is appended at the end. -/
def insertAL {β : Type} (m : List (String × β)) (k : String) (v : β) :
    List (String × β) :=
  if m.any (fun p => p.1 == k) then
    m.map (fun p => if p.1 == k then (k, v) else p)
  else m ++ [(k, v)]

/-- One entry of a Python list-shaped tags field: either a raw string or
a one-entry mapping. -/
inductive TagItem : Type
  | strItem (s : String)
  | dictItem (m : List (String × String))
deriving DecidableEq

/-- The tags field of a resource as the source may encounter it: absent,
a mapping, a list of entries, or some other non-mapping non-list value. -/
inductive TagsField : Type
  | absent
  | dictTags (m : List (String × String))
  | listTags (items : List TagItem)
  | otherTags
deriving DecidableEq

/-- A resource as seen by the auto-tag-user action: an id plus a tags
field; all other resource fields are irrelevant to the action. -/
structure Resource where
  id : String
  tags : TagsField
deriving DecidableEq

/-- Python str.split with a one-character separator: splitting the empty
string yields one empty part, and each separator occurrence starts a new
part. -/
def splitParts (sep : Char) : List Char → List (List Char)
  | [] => [[]]
  | c :: cs =>
    match splitParts sep cs with
    | [] => [[c]]
    | p :: ps => if c = sep then [] :: p :: ps else (c :: p) :: ps

/-- The list branch of get_tags_from_resource. A dict entry makes the
source return the result of dict.update, which is None in Python, so the
whole parse yields none; a string entry contributes a pair only when it
splits into exactly two parts around an equals sign. -/
def parseListTags : List TagItem → List (String × String) →
    Option (List (String × String))
  | [], acc => some acc
  | TagItem.dictItem _ :: _, _ => none
  | TagItem.strItem s :: rest, acc =>
    match splitParts '=' s.data with
    | [k, v] => parseListTags rest (insertAL acc (String.mk k) (String.mk v))
    | _ => parseListTags rest acc

/-- AutoTagUser.get_tags_from_resource: a mapping is returned as is, a
list is folded entry by entry, and anything else yields none. -/
def get_tags_from_resource (r : Resource) : Option (List (String × String)) :=
  match r.tags with
  | TagsField.absent => none
  | TagsField.dictTags m => some m
  | TagsField.listTags items => parseListTags items []
  | TagsField.otherTags => none

/-- A cloud audit-trail event: a user record modelled as a string
mapping, plus an optional source ip. -/
structure Event where
  user : List (String × String)
  source_ip : Option String
deriving DecidableEq

/-- The configuration of the auto-tag-user action: the required tag key,
the update flag, the optional user-type allow list, the optional
principal-id tag key, and the optional value selector. -/
structure Config where
  tag : String
  update : Bool
  user_type : Option (List String)
  principal_id_tag : Option String
  value : Option String
deriving DecidableEq

/-- The default user-type allow list of get_tag_value. -/
def defaultUserTypes : List String := ["AssumedRole", "IAMUser", "FederatedUser"]

/-- The record built by get_tag_value: the actor name, the principal id
and the selected value, each optional since Python leaves them None. -/
structure UserInfo where
  user : Option String
  id : Option String
  value : Option String
deriving DecidableEq

/-- Python exceptions that the embedded code can raise. -/
inductive PyError : Type
  | typeError
  | keyError
deriving DecidableEq

/-- AutoTagUser.get_user_info_value: selects a value from the event
according to the configured value selector; a dict .get with a default
of the empty string is used for the user-record lookups. -/
def get_user_info_value (cfg : Config) (utype : String) (ev : Event) :
    Option String :=
  match cfg.value with
  | none => none
  | some vtype =>
    if vtype == "userName" then
      if utype == "IAMUser" then
        some ((List.lookup "userName" ev.user).getD "")
      else if utype == "AssumedRole" || utype == "FederatedUser" then
        some ((List.lookup "userName" ev.user).getD "")
      else none
    else if vtype == "sourceIPAddress" then
      some (ev.source_ip.getD "")
    else if vtype == "principalId" then
      some ((List.lookup "principalId" ev.user).getD "")
    else none

/-- AutoTagUser.get_tag_value: indexing a missing key raises KeyError;
an actor type outside the allow list yields none; otherwise the user
name, principal id and selected value are collected. -/
def get_tag_value (cfg : Config) (ev : Event) : Except PyError (Option UserInfo) :=
  match List.lookup "type" ev.user with
  | none => Except.error PyError.keyError
  | some utype =>
    if (cfg.user_type.getD defaultUserTypes).contains utype then
      if utype == "IAMUser" || utype == "AssumedRole" || utype == "FederatedUser" then
        match List.lookup "name" ev.user with
        | none => Except.error PyError.keyError
        | some nm =>
          Except.ok (some ⟨some nm,
            some ((List.lookup "principal_id" ev.user).getD ""),
            get_user_info_value cfg utype ev⟩)
      else
        Except.ok (some ⟨none, none, get_user_info_value cfg utype ev⟩)
    else Except.ok none

/-- The new_tags dict built in AutoTagUser.process: the primary tag key
gets the selected value when truthy, else the actor name when truthy;
then, when the principal-id tag key and the principal id are both
truthy, the principal id is assigned under that key. -/
def computeNewTags (cfg : Config) (ui : UserInfo) : List (String × String) :=
  let nt : List (String × String) := []
  let nt :=
    if truthy ui.value then insertAL nt cfg.tag (ui.value.getD "")
    else if truthy ui.user then insertAL nt cfg.tag (ui.user.getD "")
    else nt
  if truthy cfg.principal_id_tag && truthy ui.id then
    insertAL nt (cfg.principal_id_tag.getD "") (ui.id.getD "")
  else nt

/-- The update-false loop of AutoTagUser.process: each resource whose
parsed tags lack the tag key is kept. When get_tags_from_resource gives
None, the Python membership test on None raises TypeError. -/
def filterUntagged (tagKey : String) : List Resource →
    Except PyError (List Resource)
  | [] => Except.ok []
  | r :: rest =>
    match get_tags_from_resource r with
    | none => Except.error PyError.typeError
    | some tags =>
      match filterUntagged tagKey rest with
      | Except.error e => Except.error e
      | Except.ok rs =>
        if tags.any (fun p => p.1 == tagKey) then Except.ok rs
        else Except.ok (r :: rs)

/-- One delegated tag-mutation call: a key, a value and the resource
batch the call targets. -/
structure Write where
  key : String
  value : String
  targets : List Resource
deriving DecidableEq

/-- AutoTagUser.process: returns none when there is no event or the
actor type is filtered out; otherwise computes the untagged target set
(all resources when update is true), builds new_tags, and issues one
write per new_tags entry against the target set. -/
def process (cfg : Config) (event : Option Event) (resources : List Resource) :
    Except PyError (Option (List (String × String) × List Write)) :=
  match event with
  | none => Except.ok none
  | some ev =>
    match get_tag_value cfg ev with
    | Except.error e => Except.error e
    | Except.ok none => Except.ok none
    | Except.ok (some ui) =>
      match (if cfg.update then Except.ok resources
             else filterUntagged cfg.tag resources) with
      | Except.error e => Except.error e
      | Except.ok untagged =>
        let nt := computeNewTags cfg ui
        Except.ok (some (nt, nt.map (fun p => Write.mk p.1 p.2 untagged)))

/-! Part 2: the NetworkLocation filter of filters/vpc.py. An attachment
is a related subnet or security group; its resolved attribute value for
the configured key, as returned by the host-framework method
get_resource_value, is modelled as a stored optional string, following
the data model of the spec for NetworkAttachment. The resolved value of
the resource itself is modelled the same way. -/

/-- A related subnet or security group: an id and the attribute value
the configured key resolves to on it, absent values being None. -/
structure Attachment where
  id : String
  value : Option String
deriving DecidableEq

/-- One entry of the evaluation list built by process_resource, each
constructor carrying the value maps the source stores with it. -/
inductive EvalEntry : Type
  | subnetLocationAbsent (subnets : List (String × Option String))
  | subnetLocationCardinality (subnets : List (String × Option String))
  | securityGroupLocationAbsent (sgs : List (String × Option String))
  | securityGroupLocationCardinality (sgs : List (String × Option String))
  | locationMismatch (subnets sgs : List (String × Option String))
  | resourceLocationAbsent (rvalue : Option String)
  | resourceLocationMismatchSG (rvalue : Option String)
      (sgs : List (String × Option String))
  | resourceLocationMismatchSubnet (rvalue : Option String)
      (subnets : List (String × Option String))
  | securityGroupMismatch (rvalue : Option String)
      (sgs : List (String × Option String))
deriving DecidableEq

/-- A resource as seen by the filter: its own resolved attribute value,
and the c7n NetworkLocation entry the filter may set on it. -/
structure NLResource where
  value : Option String
  netLoc : Option (List EvalEntry)
deriving DecidableEq

/-- The three match modes of the filter schema. -/
inductive MatchMode : Type
  | equal
  | notEqual
  | inMode
deriving DecidableEq

/-- The configuration of the network-location filter: the compare list,
the max-cardinality bound, the missing-ok flag, the match mode and the
allowed-value list used by the in mode. -/
structure NLConfig where
  compare : List String
  maxCardinality : Int
  missingOk : Bool
  mode : MatchMode
  allowed : List String
deriving DecidableEq

/-- The per-target dict comprehension of process_resource: attachment id
mapped to resolved value, a duplicate id overwriting in place. -/
def attachValues (atts : List Attachment) : List (String × Option String) :=
  atts.foldl (fun m a => insertAL m a.id a.value) []

/-- The Python test None in values on a value map. -/
def hasNoneVal (m : List (String × Option String)) : Bool :=
  m.any (fun p => p.2 == none)

/-- The value space the source computes: set(filter(None, values)), the
distinct values after dropping falsy ones, so both None and the empty
string are dropped. -/
def valueSpace (m : List (String × Option String)) : List String :=
  (((m.map Prod.snd).filterMap id).filter (fun s => s != "")).dedup

/-- The value space as the spec glossary words it: the distinct non-null
values, keeping the empty string. Used to state claims that follow the
glossary wording. -/
def nonNullValueSpace (m : List (String × Option String)) : List String :=
  ((m.map Prod.snd).filterMap id).dedup

/-- Equality of two deduplicated lists viewed as Python sets. -/
def setEqB (a b : List String) : Bool :=
  a.all (fun x => b.contains x) && b.all (fun x => a.contains x)

/-- Python membership of an optional value in a set of strings: None is
in no set of strings. -/
def optMem (v : Option String) (s : List String) : Bool :=
  match v with
  | none => false
  | some x => s.contains x

/-- The subnet block of process_resource: an absence entry when a value
is None and missing-ok is false, then a cardinality entry when the value
space exceeds the bound. -/
def subnetBlock (cfg : NLConfig) (subnet_values : List (String × Option String)) :
    List EvalEntry :=
  if cfg.compare.contains "subnet" then
    (if !cfg.missingOk && hasNoneVal subnet_values then
      [EvalEntry.subnetLocationAbsent subnet_values] else [])
    ++ (if ((valueSpace subnet_values).length : Int) > cfg.maxCardinality then
      [EvalEntry.subnetLocationCardinality subnet_values] else [])
  else []

/-- The security-group block of process_resource, mirroring the subnet
block. -/
def sgBlock (cfg : NLConfig) (sg_values : List (String × Option String)) :
    List EvalEntry :=
  if cfg.compare.contains "security-group" then
    (if !cfg.missingOk && hasNoneVal sg_values then
      [EvalEntry.securityGroupLocationAbsent sg_values] else [])
    ++ (if ((valueSpace sg_values).length : Int) > cfg.maxCardinality then
      [EvalEntry.securityGroupLocationCardinality sg_values] else [])
  else []

/-- The cross-target block of process_resource: a location-mismatch
entry when both targets are compared and their value spaces differ as
sets. -/
def misBlock (cfg : NLConfig)
    (subnet_values sg_values : List (String × Option String)) : List EvalEntry :=
  if cfg.compare.contains "subnet" && cfg.compare.contains "security-group"
      && !setEqB (valueSpace sg_values) (valueSpace subnet_values) then
    [EvalEntry.locationMismatch subnet_values sg_values]
  else []

/-- The resource block of process_resource: the absence and mismatch
entries form one if-elif chain, and the per-group mismatch entry is a
separate check listing only the groups whose value differs from the
resource value. -/
def resBlock (cfg : NLConfig) (r : NLResource)
    (resource_sgs resource_subnets : List Attachment)
    (subnet_values sg_values : List (String × Option String)) : List EvalEntry :=
  if cfg.compare.contains "resource" then
    (if !cfg.missingOk && r.value == none then
      [EvalEntry.resourceLocationAbsent r.value]
    else if cfg.compare.contains "security-group" && !resource_sgs.isEmpty
        && !optMem r.value (valueSpace sg_values) then
      [EvalEntry.resourceLocationMismatchSG r.value sg_values]
    else if cfg.compare.contains "subnet" && !resource_subnets.isEmpty
        && !optMem r.value (valueSpace subnet_values) then
      [EvalEntry.resourceLocationMismatchSubnet r.value subnet_values]
    else [])
    ++ (if cfg.compare.contains "security-group" && !resource_sgs.isEmpty then
      (if !(sg_values.filter (fun p => p.2 != r.value)).isEmpty then
        [EvalEntry.securityGroupMismatch r.value
          (sg_values.filter (fun p => p.2 != r.value))]
      else [])
    else [])
  else []

/-- The ordered evaluation list built by NetworkLocation.process_resource
for the equal and not-equal modes; it does not depend on the match
mode. -/
def evaluationOf (cfg : NLConfig) (r : NLResource)
    (resource_sgs resource_subnets : List Attachment) : List EvalEntry :=
  let subnet_values := attachValues resource_subnets
  let sg_values := attachValues resource_sgs
  subnetBlock cfg subnet_values
    ++ sgBlock cfg sg_values
    ++ misBlock cfg subnet_values sg_values
    ++ resBlock cfg r resource_sgs resource_subnets subnet_values sg_values

/-- NetworkLocation.process_match_in: each compared target must have no
None value when missing-ok is false and a value space inside the allowed
set, and the resource value itself must be in the allowed set; the
source returns early at the first failed check, which for pure checks
equals the conjunction. -/
def process_match_in (cfg : NLConfig) (r : NLResource)
    (resource_sgs resource_subnets : List Attachment) : Option NLResource :=
  let vals := cfg.allowed
  let subnetOK :=
    if cfg.compare.contains "subnet" then
      let sv := attachValues resource_subnets
      !(!cfg.missingOk && hasNoneVal sv)
        && (valueSpace sv).all (fun x => vals.contains x)
    else true
  let sgOK :=
    if cfg.compare.contains "security-group" then
      let sv := attachValues resource_sgs
      !(!cfg.missingOk && hasNoneVal sv)
        && (valueSpace sv).all (fun x => vals.contains x)
    else true
  let resOK :=
    if cfg.compare.contains "resource" then
      !(!cfg.missingOk && r.value == none) && optMem r.value vals
    else true
  if subnetOK && sgOK && resOK then some r else none

/-- NetworkLocation.process_resource: the in mode is delegated; in the
not-equal mode a nonempty evaluation list is stored on the resource
under the c7n NetworkLocation key and the resource is returned; in the
equal mode the resource is returned untouched exactly when the
evaluation list is empty. -/
def process_resource (cfg : NLConfig) (r : NLResource)
    (resource_sgs resource_subnets : List Attachment) : Option NLResource :=
  match cfg.mode with
  | MatchMode.inMode => process_match_in cfg r resource_sgs resource_subnets
  | MatchMode.notEqual =>
    let evals := evaluationOf cfg r resource_sgs resource_subnets
    if evals.isEmpty then none else some { r with netLoc := some evals }
  | MatchMode.equal =>
    let evals := evaluationOf cfg r resource_sgs resource_subnets
    if evals.isEmpty then some r else none

end CC

deriving instance DecidableEq for Except

namespace CC

/-! Concrete fixtures used by the claim theorems, witnesses and
counterexamples. -/

/-- An event whose user record follows the Event data model of the spec:
a type and a name. -/
def evA : Event := ⟨[("type", "IAMUser"), ("name", "alice")], none⟩

/-- The same event with a principal id as well. -/
def evPid : Event :=
  ⟨[("type", "IAMUser"), ("name", "alice"), ("principal_id", "pid")], none⟩

/-- A minimal configuration: tag Owner, no update, defaults elsewhere. -/
def cfgPlain : Config := ⟨"Owner", false, none, none, none⟩

/-- The same configuration plus a principal-id tag key. -/
def cfgPid : Config := ⟨"Owner", false, none, some "OwnerId", none⟩

/-- A resource with no tags field at all. -/
def rNoTags : Resource := ⟨"r1", TagsField.absent⟩

/-- A resource already carrying the Owner tag. -/
def rOwner : Resource := ⟨"a", TagsField.dictTags [("Owner", "x")]⟩

/-- A resource with an empty tag mapping. -/
def rEmpty : Resource := ⟨"c", TagsField.dictTags []⟩

/-- A resource whose tags field is a list holding a one-entry mapping,
one of the representations the spec names for tag collections. -/
def rListDict : Resource := ⟨"b", TagsField.listTags [TagItem.dictItem [("k", "v")]]⟩

/-! Helper lemmas about the autotag embedding. -/

theorem filterUntagged_eq (tagKey : String) (rs : List Resource)
    (h : ∀ r ∈ rs, (get_tags_from_resource r).isSome = true) :
    filterUntagged tagKey rs = Except.ok (rs.filter (fun r =>
      !(((get_tags_from_resource r).getD []).any (fun p => p.1 == tagKey)))) := by
  induction rs with
  | nil => rfl
  | cons r rest ih =>
    have hr := h r (List.mem_cons_self r rest)
    obtain ⟨tags, htags⟩ := Option.isSome_iff_exists.mp hr
    have ih2 := ih (fun x hx => h x (List.mem_cons_of_mem r hx))
    by_cases hc : tags.any (fun p => p.1 == tagKey)
    · simp [filterUntagged, htags, ih2, List.filter_cons, hc]
    · simp [filterUntagged, htags, ih2, List.filter_cons, hc]

theorem process_writes_shape (cfg : Config) (ev : Event) (rs : List Resource)
    (nt : List (String × String)) (ws : List Write)
    (h : process cfg (some ev) rs = Except.ok (some (nt, ws))) :
    ∃ untagged, (if cfg.update then (Except.ok rs : Except PyError (List Resource))
        else filterUntagged cfg.tag rs) = Except.ok untagged
      ∧ ws = nt.map (fun p => Write.mk p.1 p.2 untagged) := by
  unfold process at h
  split at h
  · exact absurd h (by simp)
  · split at h
    · exact absurd h (by simp)
    · exact absurd h (by simp)
    · rename_i ui heq2
      split at h
      · exact absurd h (by simp)
      · rename_i untagged hunt
        refine ⟨untagged, hunt, ?_⟩
        simp only [Except.ok.injEq, Option.some.injEq, Prod.mk.injEq] at h
        rw [← h.1, ← h.2]

/-! Claim theorems for the auto-tag-user action. -/

/-- C1: the claim says the apply step with overwrite false treats a
resource whose tag collection is malformed or absent as having no tags
and never raises. The source instead raises TypeError: for such a
resource get_tags_from_resource returns None and process then runs a
Python membership test on None. Shown on a resource with no tags
field. -/
theorem C1_malformed_tags_raise :
    process cfgPlain (some evA) [rNoTags] = Except.error PyError.typeError
    ∧ get_tags_from_resource rNoTags = none := ⟨rfl, rfl⟩

/-- C4 counterexample: on a resource list holding a resource whose tags
field is a list with a one-entry mapping, the parse yields None, so the
apply step raises instead of targeting that resource, although its
parsed tag set lacks the tag key; hence no write target set exists at
all for this list, refuting the claimed exact characterization. -/
theorem C4_counterexample :
    process cfgPlain (some evA) [rOwner, rListDict] = Except.error PyError.typeError
    ∧ get_tags_from_resource rListDict = none := ⟨rfl, rfl⟩

/-- C4 amended: when every resource in the list has a tag collection
that parses to a mapping, the write target set is exactly all resources
when update is true, and exactly the resources whose parsed tag set
lacks the tag key when update is false; in particular a resource
carrying the tag key is never targeted when update is false. -/
theorem C4_target_set (cfg : Config) (ev : Event) (rs : List Resource)
    (hparse : ∀ r ∈ rs, (get_tags_from_resource r).isSome = true) :
    ∀ nt ws, process cfg (some ev) rs = Except.ok (some (nt, ws)) →
      ∀ w ∈ ws, w.targets =
        (if cfg.update then rs
         else rs.filter (fun r =>
           !(((get_tags_from_resource r).getD []).any (fun p => p.1 == cfg.tag)))) := by
  intro nt ws h w hw
  obtain ⟨untagged, hunt, hws⟩ := process_writes_shape cfg ev rs nt ws h
  subst hws
  obtain ⟨p, hp, rfl⟩ := List.mem_map.mp hw
  by_cases hu : cfg.update
  · simp only [hu, if_true] at hunt ⊢
    simpa using hunt.symm
  · simp only [hu, if_false, Bool.false_eq_true] at hunt ⊢
    rw [filterUntagged_eq cfg.tag rs hparse] at hunt
    simpa using hunt.symm

/-- C4 witness: a concrete run with update false over one resource
carrying the Owner tag and one without it writes only to the latter. -/
theorem C4_target_set_witness :
    (Write.mk "Owner" "alice" [rEmpty]).targets =
      (if cfgPlain.update then [rOwner, rEmpty]
       else ([rOwner, rEmpty]).filter (fun r =>
         !(((get_tags_from_resource r).getD []).any (fun p => p.1 == cfgPlain.tag)))) :=
  C4_target_set cfgPlain evA [rOwner, rEmpty] (by decide)
    [("Owner", "alice")] [Write.mk "Owner" "alice" [rEmpty]] rfl
    (Write.mk "Owner" "alice" [rEmpty]) (by decide)

/-- C5 counterexample: with the principal-id tag key configured equal to
the tag key, the principal id overwrites the precedence value in the
new-tags dict, so the value written for the tag key is the principal id
and not the actor name, although the selected value is empty and the
actor name is nonempty. -/
theorem C5_counterexample :
    process ⟨"Owner", true, none, some "Owner", none⟩ (some evPid) [rEmpty] =
      Except.ok (some ([("Owner", "pid")], [Write.mk "Owner" "pid" [rEmpty]]))
    ∧ ("pid" : String) ≠ "alice" := ⟨rfl, by decide⟩

/-- C5 amended: the value recorded for the tag key is the selected value
when truthy, else the actor name when truthy, else nothing, except when
the principal-id tag key is configured, truthy and equal to the tag key
while the principal id is truthy, in which case the principal id
overwrites it. -/
theorem C5_value_precedence (cfg : Config) (ui : UserInfo) :
    List.lookup cfg.tag (computeNewTags cfg ui) =
      (if truthy cfg.principal_id_tag && (cfg.principal_id_tag == some cfg.tag)
          && truthy ui.id then some (ui.id.getD "")
      else if truthy ui.value then some (ui.value.getD "")
      else if truthy ui.user then some (ui.user.getD "")
      else none) := by
  unfold computeNewTags
  by_cases hv : truthy ui.value <;> by_cases hu : truthy ui.user <;>
  by_cases hp : truthy cfg.principal_id_tag <;> by_cases hi : truthy ui.id <;>
  by_cases he : cfg.principal_id_tag == some cfg.tag <;>
    simp_all [insertAL, List.lookup, truthy]
  all_goals {
    cases hpt : cfg.principal_id_tag with
    | none => simp_all [truthy]
    | some pk =>
      simp_all [truthy, List.lookup]
      try {
        have hne : (cfg.tag == pk) = false := by
          rw [beq_eq_false_iff_ne]
          exact fun hh => he hh.symm
        first
        | (rw [if_neg (fun hh : cfg.tag = pk => he hh.symm)]; simp [List.lookup, hne])
        | simp [hne]
      }
  }

/-- C6: the claim says the userName value selector yields the name entry
of the user record for an event following the Event data model. The
source reads the key userName, which that data model does not carry, so
the selected value is the empty-string default while the name entry is
alice. -/
theorem C6_userName_selector_reads_missing_key :
    get_user_info_value ⟨"Owner", false, none, none, some "userName"⟩ "IAMUser" evA
      = some ""
    ∧ List.lookup "name" evA.user = some "alice"
    ∧ get_tag_value ⟨"Owner", false, none, none, some "userName"⟩ evA =
        Except.ok (some ⟨some "alice", some "", some ""⟩) := ⟨rfl, rfl, rfl⟩

/-- C7 counterexample: with a principal-id tag key configured, update
false, one resource already tagged and one untagged, both writes target
only the untagged resource, refuting the claim that the second write is
issued against the full resources set. -/
theorem C7_counterexample :
    process cfgPid (some evPid) [rOwner, rEmpty] =
      Except.ok (some ([("Owner", "alice"), ("OwnerId", "pid")],
        [Write.mk "Owner" "alice" [rEmpty], Write.mk "OwnerId" "pid" [rEmpty]]))
    ∧ [rEmpty] ≠ [rOwner, rEmpty] := ⟨rfl, by decide⟩

/-- C7 amended: every write of one apply invocation, the principal-id
write included, targets the same set, namely the update-filtered
untagged set the primary write targets. -/
theorem C7_principal_write_targets (cfg : Config) (ev : Event) (rs : List Resource)
    (nt : List (String × String)) (ws : List Write)
    (h : process cfg (some ev) rs = Except.ok (some (nt, ws))) :
    ∀ w ∈ ws, ∀ w2 ∈ ws, w.targets = w2.targets := by
  obtain ⟨untagged, _, hws⟩ := process_writes_shape cfg ev rs nt ws h
  subst hws
  intro w hw w2 hw2
  obtain ⟨p, _, rfl⟩ := List.mem_map.mp hw
  obtain ⟨q, _, rfl⟩ := List.mem_map.mp hw2
  rfl

/-- C7 witness: in the concrete run of the counterexample input, the
primary write and the principal-id write target the same batch. -/
theorem C7_principal_write_targets_witness :
    (Write.mk "Owner" "alice" [rEmpty]).targets
      = (Write.mk "OwnerId" "pid" [rEmpty]).targets :=
  C7_principal_write_targets cfgPid evPid [rOwner, rEmpty]
    [("Owner", "alice"), ("OwnerId", "pid")]
    [Write.mk "Owner" "alice" [rEmpty], Write.mk "OwnerId" "pid" [rEmpty]] rfl
    (Write.mk "Owner" "alice" [rEmpty]) (by decide)
    (Write.mk "OwnerId" "pid" [rEmpty]) (by decide)

/-! Claim theorems for the network-location filter. -/

/-- Recognizer for the subnet cardinality entry. -/
def isSubnetCard : EvalEntry → Bool
  | EvalEntry.subnetLocationCardinality _ => true
  | _ => false

/-- Recognizer for the security-group cardinality entry. -/
def isSGCard : EvalEntry → Bool
  | EvalEntry.securityGroupLocationCardinality _ => true
  | _ => false

/-- Recognizer for the subnet absence entry. -/
def isSubnetAbsent : EvalEntry → Bool
  | EvalEntry.subnetLocationAbsent _ => true
  | _ => false

/-- Recognizer for the security-group absence entry. -/
def isSGAbsent : EvalEntry → Bool
  | EvalEntry.securityGroupLocationAbsent _ => true
  | _ => false

theorem evaluationOf_mode (cfg : NLConfig) (m : MatchMode) (r : NLResource)
    (sgs subs : List Attachment) :
    evaluationOf { cfg with mode := m } r sgs subs
      = evaluationOf cfg r sgs subs := rfl

theorem countP_subnetBlock (cfg : NLConfig) (m : List (String × Option String)) :
    ((subnetBlock cfg m).countP isSubnetCard =
      if "subnet" ∈ cfg.compare
          ∧ ((valueSpace m).length : Int) > cfg.maxCardinality then 1 else 0)
    ∧ ((subnetBlock cfg m).countP isSubnetAbsent =
      if "subnet" ∈ cfg.compare
          ∧ (!cfg.missingOk && hasNoneVal m) = true then 1 else 0)
    ∧ ((subnetBlock cfg m).countP isSGCard = 0)
    ∧ ((subnetBlock cfg m).countP isSGAbsent = 0) := by
  by_cases h1 : "subnet" ∈ cfg.compare <;>
  by_cases h2 : !cfg.missingOk && hasNoneVal m <;>
  by_cases h3 : ((valueSpace m).length : Int) > cfg.maxCardinality <;>
    simp [subnetBlock, h1, h2, h3, isSubnetCard, isSubnetAbsent, isSGCard,
      isSGAbsent, List.countP_append, List.countP_cons]

theorem countP_sgBlock (cfg : NLConfig) (m : List (String × Option String)) :
    ((sgBlock cfg m).countP isSGCard =
      if "security-group" ∈ cfg.compare
          ∧ ((valueSpace m).length : Int) > cfg.maxCardinality then 1 else 0)
    ∧ ((sgBlock cfg m).countP isSGAbsent =
      if "security-group" ∈ cfg.compare
          ∧ (!cfg.missingOk && hasNoneVal m) = true then 1 else 0)
    ∧ ((sgBlock cfg m).countP isSubnetCard = 0)
    ∧ ((sgBlock cfg m).countP isSubnetAbsent = 0) := by
  by_cases h1 : "security-group" ∈ cfg.compare <;>
  by_cases h2 : !cfg.missingOk && hasNoneVal m <;>
  by_cases h3 : ((valueSpace m).length : Int) > cfg.maxCardinality <;>
    simp [sgBlock, h1, h2, h3, isSubnetCard, isSubnetAbsent, isSGCard,
      isSGAbsent, List.countP_append, List.countP_cons]

theorem countP_misBlock (cfg : NLConfig)
    (sv gv : List (String × Option String)) :
    ((misBlock cfg sv gv).countP isSubnetCard = 0)
    ∧ ((misBlock cfg sv gv).countP isSGCard = 0)
    ∧ ((misBlock cfg sv gv).countP isSubnetAbsent = 0)
    ∧ ((misBlock cfg sv gv).countP isSGAbsent = 0) := by
  unfold misBlock
  split <;>
    simp [isSubnetCard, isSubnetAbsent, isSGCard, isSGAbsent, List.countP_cons]

theorem countP_resBlock (cfg : NLConfig) (r : NLResource)
    (sgs subs : List Attachment) (sv gv : List (String × Option String)) :
    ((resBlock cfg r sgs subs sv gv).countP isSubnetCard = 0)
    ∧ ((resBlock cfg r sgs subs sv gv).countP isSGCard = 0)
    ∧ ((resBlock cfg r sgs subs sv gv).countP isSubnetAbsent = 0)
    ∧ ((resBlock cfg r sgs subs sv gv).countP isSGAbsent = 0) := by
  refine ⟨?_, ?_, ?_, ?_⟩ <;>
  · rw [List.countP_eq_zero]
    intro a ha
    unfold resBlock at ha
    split at ha
    case isFalse => simp at ha
    case isTrue =>
      rw [List.mem_append] at ha
      rcases ha with ha | ha
      · split at ha
        · simp at ha; subst ha; simp [isSubnetCard, isSGCard, isSubnetAbsent, isSGAbsent]
        · split at ha
          · simp at ha; subst ha; simp [isSubnetCard, isSGCard, isSubnetAbsent, isSGAbsent]
          · split at ha
            · simp at ha; subst ha; simp [isSubnetCard, isSGCard, isSubnetAbsent, isSGAbsent]
            · simp at ha
      · split at ha
        · split at ha
          · simp at ha; subst ha; simp [isSubnetCard, isSGCard, isSubnetAbsent, isSGAbsent]
          · simp at ha
        · simp at ha

/-- C2 counterexample: with one subnet valued with the empty string and
one valued x, the distinct non-null value space of the spec glossary has
size two, above the bound one, yet the source emits no subnet
cardinality entry, because its value space also drops the falsy empty
string. -/
theorem C2_counterexample :
    ((nonNullValueSpace (attachValues [⟨"s1", some ""⟩, ⟨"s2", some "x"⟩])).length : Int) = 2
    ∧ (2 : Int) > (⟨["subnet"], 1, true, MatchMode.notEqual, []⟩ : NLConfig).maxCardinality
    ∧ (evaluationOf (⟨["subnet"], 1, true, MatchMode.notEqual, []⟩ : NLConfig)
        ⟨none, none⟩ [] [⟨"s1", some ""⟩, ⟨"s2", some "x"⟩]).countP isSubnetCard = 0 := by
  decide

/-- C2 amended: for each comparison target in the compare set, exactly
one cardinality entry appears in the evaluation list when the distinct
truthy value space of that target, the one the source computes after
dropping both None and the empty string, exceeds the bound, and none
appears otherwise. -/
theorem C2_cardinality_emission (cfg : NLConfig) (r : NLResource)
    (sgs subs : List Attachment) :
    ((evaluationOf cfg r sgs subs).countP isSubnetCard =
      if "subnet" ∈ cfg.compare
          ∧ ((valueSpace (attachValues subs)).length : Int) > cfg.maxCardinality
        then 1 else 0)
    ∧ ((evaluationOf cfg r sgs subs).countP isSGCard =
      if "security-group" ∈ cfg.compare
          ∧ ((valueSpace (attachValues sgs)).length : Int) > cfg.maxCardinality
        then 1 else 0) := by
  obtain ⟨hs1, hs2, hs3, hs4⟩ := countP_subnetBlock cfg (attachValues subs)
  obtain ⟨hg1, hg2, hg3, hg4⟩ := countP_sgBlock cfg (attachValues sgs)
  obtain ⟨hm1, hm2, hm3, hm4⟩ :=
    countP_misBlock cfg (attachValues subs) (attachValues sgs)
  obtain ⟨hr1, hr2, hr3, hr4⟩ :=
    countP_resBlock cfg r sgs subs (attachValues subs) (attachValues sgs)
  constructor
  · simp [evaluationOf, List.countP_append, hs1, hg3, hm1, hr1]
  · simp [evaluationOf, List.countP_append, hs3, hg1, hm2, hr2]

/-- C3: for fixed inputs the equal and not-equal modes are
complementary: the filter returns the resource under exactly one of the
two, the not-equal mode matching exactly when the evaluation list is
nonempty. -/
theorem C3_equal_notEqual_complement (cfg : NLConfig) (r : NLResource)
    (sgs subs : List Attachment) :
    ((process_resource { cfg with mode := MatchMode.notEqual } r sgs subs).isSome
      = !(process_resource { cfg with mode := MatchMode.equal } r sgs subs).isSome)
    ∧ ((process_resource { cfg with mode := MatchMode.notEqual } r sgs subs).isSome
      = !(evaluationOf cfg r sgs subs).isEmpty) := by
  cases h : (evaluationOf cfg r sgs subs).isEmpty <;>
    simp [process_resource, evaluationOf_mode, h]

/-- C8 counterexample: in the in mode with one subnet valued with the
empty string and an allowed set not containing it, the spec-glossary
value space is not a subset of the allowed set, so the claim disqualifies
the resource, yet the source matches it, because its value space drops
the falsy empty string before the subset test. -/
theorem C8_counterexample :
    process_resource (⟨["subnet"], 1, false, MatchMode.inMode, ["x"]⟩ : NLConfig)
        ⟨none, none⟩ [] [⟨"s1", some ""⟩] = some ⟨none, none⟩
    ∧ nonNullValueSpace (attachValues [⟨"s1", some ""⟩]) = [""]
    ∧ ¬ ("" ∈ (⟨["subnet"], 1, false, MatchMode.inMode, ["x"]⟩ : NLConfig).allowed) := by
  decide

theorem all_bnot_eq_bnot_any {α : Type} (l : List α) (p : α → Bool) :
    (l.all fun a => !(p a)) = !(l.any p) := by
  induction l with
  | nil => rfl
  | cons a t ih => simp [List.all_cons, List.any_cons, ih]

/-- Modelled on the spec wording of the in mode, amended to the truthy
value space the source computes: each compared target must have no None
value when missing-ok is false and its truthy value space inside the
allowed set, and when the resource is compared its own value must be in
the allowed set, with an extra None check under missing-ok false. -/
def specInMatch (cfg : NLConfig) (r : NLResource)
    (sgs subs : List Attachment) : Bool :=
  (if cfg.compare.contains "subnet" then
    (cfg.missingOk || (attachValues subs).all fun p => !(p.2 == none))
      && ((valueSpace (attachValues subs)).all fun v => cfg.allowed.contains v)
  else true)
  && (if cfg.compare.contains "security-group" then
    (cfg.missingOk || (attachValues sgs).all fun p => !(p.2 == none))
      && ((valueSpace (attachValues sgs)).all fun v => cfg.allowed.contains v)
  else true)
  && (if cfg.compare.contains "resource" then
    (cfg.missingOk || !(r.value == none)) && optMem r.value cfg.allowed
  else true)

/-- C8 amended: in the in mode the filter returns the resource unchanged
exactly when the spec-side predicate over the truthy value spaces holds,
and returns nothing otherwise, so a non-matching resource is never
annotated. -/
theorem C8_in_mode_characterization (cfg : NLConfig) (r : NLResource)
    (sgs subs : List Attachment) :
    process_resource { cfg with mode := MatchMode.inMode } r sgs subs
      = (if specInMatch cfg r sgs subs then some r else none) := by
  have h : process_resource { cfg with mode := MatchMode.inMode } r sgs subs
      = process_match_in cfg r sgs subs := rfl
  rw [h]
  have hb : ∀ (c : Bool) (m : List (String × Option String)),
      (!(!c && hasNoneVal m)) = (c || m.all fun p => !(p.2 == none)) := by
    intro c m
    unfold hasNoneVal
    simp only [Bool.not_and, Bool.not_not, all_bnot_eq_bnot_any]
  have hr : (!(!cfg.missingOk && r.value == none))
      = (cfg.missingOk || !(r.value == none)) := by
    simp only [Bool.not_and, Bool.not_not]
  simp only [process_match_in, specInMatch, hb, hr]

theorem insertAL_forall {β : Type} (P : β → Prop) (m : List (String × β))
    (k : String) (v : β) (hm : ∀ p ∈ m, P p.2) (hv : P v) :
    ∀ p ∈ insertAL m k v, P p.2 := by
  intro p hp
  unfold insertAL at hp
  by_cases h : m.any (fun q => q.1 == k)
  · rw [if_pos h] at hp
    obtain ⟨q, hq, hpq⟩ := List.mem_map.mp hp
    by_cases hk : q.1 == k
    · rw [if_pos hk] at hpq
      rw [← hpq]
      exact hv
    · rw [if_neg hk] at hpq
      rw [← hpq]
      exact hm q hq
  · rw [if_neg h] at hp
    rcases List.mem_append.mp hp with hp | hp
    · exact hm p hp
    · rw [List.mem_singleton.mp hp]
      exact hv

theorem attachValues_forall (P : Option String → Prop) :
    ∀ (atts : List Attachment) (acc : List (String × Option String)),
      (∀ a ∈ atts, P a.value) → (∀ p ∈ acc, P p.2) →
      ∀ p ∈ atts.foldl (fun m a => insertAL m a.id a.value) acc, P p.2 := by
  intro atts
  induction atts with
  | nil =>
    intro acc _ hacc
    simpa using hacc
  | cons a t ih =>
    intro acc hatts hacc
    simp only [List.foldl_cons]
    exact ih (insertAL acc a.id a.value)
      (fun x hx => hatts x (List.mem_cons_of_mem a hx))
      (insertAL_forall P acc a.id a.value hacc (hatts a (List.mem_cons_self a t)))

theorem hasNoneVal_attachValues (atts : List Attachment)
    (h : ∀ a ∈ atts, a.value ≠ none) :
    hasNoneVal (attachValues atts) = false := by
  by_cases hb : hasNoneVal (attachValues atts)
  · exfalso
    unfold hasNoneVal at hb
    obtain ⟨p, hp, hpe⟩ := List.any_eq_true.mp hb
    have := attachValues_forall (fun v => v ≠ none) atts [] h (by simp) p hp
    exact this (by simpa using hpe)
  · simpa using hb

theorem empty_not_mem_valueSpace (m : List (String × Option String)) :
    "" ∉ valueSpace m := by
  unfold valueSpace
  intro h
  rw [List.mem_dedup] at h
  have := List.of_mem_filter h
  simp at this

/-- C9: an attachment value that is the empty string is dropped from the
value space, so it never feeds the cardinality check, yet it triggers no
absence entry even with missing-ok false, since only a literal None does:
whenever no attachment value is None, the evaluation list holds no
absence entry for either target, and the empty string is never in either
value space. -/
theorem C9_falsy_value_handling (cfg : NLConfig) (r : NLResource)
    (sgs subs : List Attachment)
    (hsub : ∀ a ∈ subs, a.value ≠ none) (hsg : ∀ a ∈ sgs, a.value ≠ none) :
    ((evaluationOf cfg r sgs subs).countP isSubnetAbsent = 0)
    ∧ ((evaluationOf cfg r sgs subs).countP isSGAbsent = 0)
    ∧ "" ∉ valueSpace (attachValues subs)
    ∧ "" ∉ valueSpace (attachValues sgs) := by
  have h1 := hasNoneVal_attachValues subs hsub
  have h2 := hasNoneVal_attachValues sgs hsg
  obtain ⟨hs1, hs2, hs3, hs4⟩ := countP_subnetBlock cfg (attachValues subs)
  obtain ⟨hg1, hg2, hg3, hg4⟩ := countP_sgBlock cfg (attachValues sgs)
  obtain ⟨hm1, hm2, hm3, hm4⟩ :=
    countP_misBlock cfg (attachValues subs) (attachValues sgs)
  obtain ⟨hr1, hr2, hr3, hr4⟩ :=
    countP_resBlock cfg r sgs subs (attachValues subs) (attachValues sgs)
  refine ⟨?_, ?_, empty_not_mem_valueSpace _, empty_not_mem_valueSpace _⟩
  · simp [evaluationOf, List.countP_append, hs2, hg4, hm3, hr3, h1]
  · simp [evaluationOf, List.countP_append, hs4, hg2, hm4, hr4, h2]

/-- C9 witness: a concrete evaluation with one empty-string subnet value
and one truthy security-group value under missing-ok false. -/
theorem C9_falsy_value_handling_witness :
    ((evaluationOf (⟨["subnet", "security-group"], 0, false, MatchMode.notEqual, []⟩ : NLConfig)
        ⟨none, none⟩ [⟨"g1", some "x"⟩] [⟨"s1", some ""⟩]).countP isSubnetAbsent = 0)
    ∧ ((evaluationOf (⟨["subnet", "security-group"], 0, false, MatchMode.notEqual, []⟩ : NLConfig)
        ⟨none, none⟩ [⟨"g1", some "x"⟩] [⟨"s1", some ""⟩]).countP isSGAbsent = 0)
    ∧ "" ∉ valueSpace (attachValues [⟨"s1", some ""⟩])
    ∧ "" ∉ valueSpace (attachValues [⟨"g1", some "x"⟩]) :=
  C9_falsy_value_handling
    (⟨["subnet", "security-group"], 0, false, MatchMode.notEqual, []⟩ : NLConfig)
    ⟨none, none⟩ [⟨"g1", some "x"⟩] [⟨"s1", some ""⟩] (by decide) (by decide)

theorem process_match_in_shape (cfg : NLConfig) (r : NLResource)
    (sgs subs : List Attachment) :
    process_match_in cfg r sgs subs = some r
      ∨ process_match_in cfg r sgs subs = none := by
  simp only [process_match_in]
  exact ite_eq_or_eq _ (some r) none

/-- C10: the c7n NetworkLocation entry is written only in the not-equal
mode with a nonempty evaluation list; in the equal and in modes the
resource object is returned, when it is returned, exactly as it came
in. -/
theorem C10_frame (cfg : NLConfig) (r : NLResource)
    (sgs subs : List Attachment) :
    (process_resource { cfg with mode := MatchMode.equal } r sgs subs = some r
      ∨ process_resource { cfg with mode := MatchMode.equal } r sgs subs = none)
    ∧ (process_resource { cfg with mode := MatchMode.inMode } r sgs subs = some r
      ∨ process_resource { cfg with mode := MatchMode.inMode } r sgs subs = none)
    ∧ process_resource { cfg with mode := MatchMode.notEqual } r sgs subs
      = (if (evaluationOf cfg r sgs subs).isEmpty then none
         else some { r with netLoc := some (evaluationOf cfg r sgs subs) }) := by
  refine ⟨?_, ?_, ?_⟩
  · by_cases h : (evaluationOf cfg r sgs subs).isEmpty
    · left
      simp [process_resource, evaluationOf_mode, h]
    · right
      simp [process_resource, evaluationOf_mode, h]
  · exact process_match_in_shape cfg r sgs subs
  · by_cases h : (evaluationOf cfg r sgs subs).isEmpty <;>
      simp [process_resource, evaluationOf_mode, h]

end CC
